import Mathlib

/-!
Shallow embedding of the vector-search core of the convex-rag-system
repository (src/convex/lib/vectors.ts, src/convex/functions/vectorSearch.ts,
src/convex/functions/vectorSearchV2.ts), with the theorems that settle the
frozen claims about it.

JavaScript numbers are modelled by `JsNum`: NaN, +Infinity, -Infinity, or a
finite value.  Finite arithmetic is modelled exactly (by rationals); IEEE-754
rounding and overflow of finite intermediate results are abstracted away,
while the special values NaN and the infinities, their propagation through
arithmetic, the JS relational operators (false on NaN), strict equality and
boolean coercion (truthiness: NaN and 0 are falsy) are modelled faithfully.
`Math.sqrt` has no exact rational counterpart, so it enters as an explicit
parameter `sqrtFn : ℚ → ℚ` applied to finite non-negative inputs (IEEE
properties such as `Math.sqrt 0 = 0` are taken as hypotheses where a theorem
needs them); the theorems below hold for an arbitrary such function.

The Convex database is modelled by passing each query handler the list of
table rows it would scan, in the order the platform yields them (ascending
`_creationTime`, which is insertion order; none of the handlers calls
`.order("desc")`).  `.filter` keeps that order and `.take n` keeps the first
`n` surviving rows.  Pagination cursor strings `"createdAt:id"` are modelled
by the pair they encode (the encoding by string concatenation and the
decoding by `split(":")`/`parseInt` are mutually inverse on every cursor the
code mints).  Wall-clock fields (`searchTimeMs`) and the hydration of chunk
and document payloads by `ctx.db.get` are outside the scope of every claim
and are omitted from the handler results.
-/

namespace ConvexRag

/-- A JavaScript (IEEE-754 double) number: NaN, one of the infinities, or a
finite value, the finite values kept exact as rationals. -/
inductive JsNum where
  | nan : JsNum
  | posInf : JsNum
  | negInf : JsNum
  | fin : ℚ → JsNum
deriving DecidableEq

namespace JsNum

/-- JS `+` on numbers. -/
def add : JsNum → JsNum → JsNum
  | nan, _ => nan
  | _, nan => nan
  | posInf, negInf => nan
  | negInf, posInf => nan
  | posInf, _ => posInf
  | _, posInf => posInf
  | negInf, _ => negInf
  | _, negInf => negInf
  | fin a, fin b => fin (a + b)

/-- JS `*` on numbers. -/
def mul : JsNum → JsNum → JsNum
  | nan, _ => nan
  | _, nan => nan
  | posInf, posInf => posInf
  | posInf, negInf => negInf
  | negInf, posInf => negInf
  | negInf, negInf => posInf
  | posInf, fin b => if b = 0 then nan else if 0 < b then posInf else negInf
  | fin a, posInf => if a = 0 then nan else if 0 < a then posInf else negInf
  | negInf, fin b => if b = 0 then nan else if 0 < b then negInf else posInf
  | fin a, negInf => if a = 0 then nan else if 0 < a then negInf else posInf
  | fin a, fin b => fin (a * b)

/-- JS `-` on numbers. -/
def sub : JsNum → JsNum → JsNum
  | nan, _ => nan
  | _, nan => nan
  | posInf, posInf => nan
  | negInf, negInf => nan
  | posInf, _ => posInf
  | negInf, _ => negInf
  | fin _, posInf => negInf
  | fin _, negInf => posInf
  | fin a, fin b => fin (a - b)

/-- JS `/` on numbers (signed zeros are not distinguished: a zero divisor is
treated as `+0`). -/
def div : JsNum → JsNum → JsNum
  | nan, _ => nan
  | _, nan => nan
  | posInf, posInf => nan
  | posInf, negInf => nan
  | negInf, posInf => nan
  | negInf, negInf => nan
  | posInf, fin b => if b < 0 then negInf else posInf
  | negInf, fin b => if b < 0 then posInf else negInf
  | fin _, posInf => fin 0
  | fin _, negInf => fin 0
  | fin a, fin b =>
      if b = 0 then (if a = 0 then nan else if 0 < a then posInf else negInf)
      else fin (a / b)

/-- JS `<` on numbers: false whenever either side is NaN. -/
def ltB : JsNum → JsNum → Bool
  | nan, _ => false
  | _, nan => false
  | posInf, _ => false
  | negInf, negInf => false
  | negInf, _ => true
  | fin _, posInf => true
  | fin _, negInf => false
  | fin a, fin b => decide (a < b)

/-- JS `<=` on numbers: false whenever either side is NaN. -/
def leB : JsNum → JsNum → Bool
  | nan, _ => false
  | _, nan => false
  | negInf, _ => true
  | _, posInf => true
  | posInf, _ => false
  | fin _, negInf => false
  | fin a, fin b => decide (a ≤ b)

/-- JS `>=` on numbers (`a >= b`): false whenever either side is NaN. -/
def geB (a b : JsNum) : Bool := leB b a

/-- JS `>` on numbers (`a > b`): false whenever either side is NaN. -/
def gtB (a b : JsNum) : Bool := ltB b a

/-- JS `===` on numbers: NaN equals nothing, everything else is compared by
value. -/
def eqB : JsNum → JsNum → Bool
  | nan, _ => false
  | _, nan => false
  | posInf, posInf => true
  | negInf, negInf => true
  | fin a, fin b => decide (a = b)
  | _, _ => false

/-- JS boolean coercion of a number: NaN and 0 are falsy, everything else is
truthy. -/
def truthy : JsNum → Bool
  | nan => false
  | posInf => true
  | negInf => true
  | fin a => decide (a ≠ 0)

/-- `Math.sqrt`, with the value on finite non-negative inputs supplied by the
abstract parameter `sqrtFn`; negative finite inputs and `-Infinity` give NaN,
`+Infinity` gives `+Infinity`. -/
def sqrtJ (sqrtFn : ℚ → ℚ) : JsNum → JsNum
  | nan => nan
  | posInf => posInf
  | negInf => nan
  | fin a => if a < 0 then nan else fin (sqrtFn a)

theorem add_nan_right (x : JsNum) : add x nan = nan := by cases x <;> rfl

theorem add_nan_left (y : JsNum) : add nan y = nan := by cases y <;> rfl

theorem mul_nan_left (y : JsNum) : mul nan y = nan := by cases y <;> rfl

theorem ltB_asymm (a b : JsNum) (h : ltB a b = true) : ltB b a = false := by
  cases a <;> cases b <;> simp_all [ltB] <;> linarith

theorem ltB_true_ne (a b : JsNum) (h : ltB a b = true) : a ≠ b := by
  cases a <;> cases b <;> simp_all [ltB]
  intro h2
  exact absurd h2 (ne_of_lt h)

theorem ltB_not_nan_left (a b : JsNum) (h : ltB a b = true) : a ≠ nan := by
  cases a <;> simp_all [ltB]

theorem ltB_neg_trans (a b c : JsNum) (ha : a ≠ nan) (hb : b ≠ nan)
    (hc : c ≠ nan) (h1 : ltB a b = false) (h2 : ltB b c = false) :
    ltB a c = false := by
  cases a <;> cases b <;> cases c <;> simp_all [ltB] <;> linarith

theorem geB_right_not_nan (a b : JsNum) (h : geB a b = true) : a ≠ nan := by
  cases a <;> cases b <;> simp_all [geB, leB]

end JsNum

open JsNum

/-! ## src/convex/lib/vectors.ts

The accumulation loops of the source are embedded as structural recursions
that consume the arrays in lockstep, exactly as the `for` loops walk the
index range (each is guarded in the source by the dimension check, so the
uneven fallthrough arms are never reached on the guarded paths). -/

/-- The loop of `cosineSimilarity`: accumulates `(dotProduct, magnitudeA,
magnitudeB)` over the common index range. -/
def simLoop : List JsNum → List JsNum → JsNum × JsNum × JsNum → JsNum × JsNum × JsNum
  | a :: as, b :: bs, (d, ma, mb) =>
      simLoop as bs (add d (mul a b), add ma (mul a a), add mb (mul b b))
  | _, _, acc => acc

/-- The dot-product loop shared by `cosineSimilarityWithMagnitude` and
`dotProduct`. -/
def dotLoop : List JsNum → List JsNum → JsNum → JsNum
  | a :: as, b :: bs, d => dotLoop as bs (add d (mul a b))
  | _, _, d => d

/-- The sum-of-squares loop of `calculateMagnitude` (also the
`reduce((sum, val) => sum + val * val, 0)` of the search handlers). -/
def sqLoop : List JsNum → JsNum → JsNum
  | v :: vs, s => sqLoop vs (add s (mul v v))
  | [], s => s

/-- The error text thrown on a dimension mismatch. -/
def dimMismatchMsg (la lb : Nat) : String :=
  "Vector dimension mismatch: " ++ toString la ++ " vs " ++ toString lb

/-- `cosineSimilarity` of src/convex/lib/vectors.ts: throws on a dimension
mismatch, accumulates dot product and both squared magnitudes in one loop,
takes square roots, returns 0 when either magnitude is 0, else the
normalized dot product. -/
def cosineSimilarity (sqrtFn : ℚ → ℚ) (a b : List JsNum) : Except String JsNum :=
  if a.length ≠ b.length then
    .error (dimMismatchMsg a.length b.length)
  else
    let acc := simLoop a b (fin 0, fin 0, fin 0)
    let magA := sqrtJ sqrtFn acc.2.1
    let magB := sqrtJ sqrtFn acc.2.2
    if eqB magA (fin 0) || eqB magB (fin 0) then .ok (fin 0)
    else .ok (div acc.1 (mul magA magB))

/-- `cosineSimilarityWithMagnitude` of src/convex/lib/vectors.ts: same
formula with the magnitudes supplied by the caller. -/
def cosineSimilarityWithMagnitude (a b : List JsNum) (magA magB : JsNum) :
    Except String JsNum :=
  if a.length ≠ b.length then
    .error (dimMismatchMsg a.length b.length)
  else
    let d := dotLoop a b (fin 0)
    if eqB magA (fin 0) || eqB magB (fin 0) then .ok (fin 0)
    else .ok (div d (mul magA magB))

/-- `calculateMagnitude` of src/convex/lib/vectors.ts. -/
def calculateMagnitude (sqrtFn : ℚ → ℚ) (v : List JsNum) : JsNum :=
  sqrtJ sqrtFn (sqLoop v (fin 0))

/-- The loop of `euclideanDistance`. -/
def distLoop : List JsNum → List JsNum → JsNum → JsNum
  | a :: as, b :: bs, s => distLoop as bs (add s (mul (sub a b) (sub a b)))
  | _, _, s => s

/-- `euclideanDistance` of src/convex/lib/vectors.ts. -/
def euclideanDistance (sqrtFn : ℚ → ℚ) (a b : List JsNum) : Except String JsNum :=
  if a.length ≠ b.length then
    .error (dimMismatchMsg a.length b.length)
  else
    .ok (sqrtJ sqrtFn (distLoop a b (fin 0)))

/-- `dotProduct` of src/convex/lib/vectors.ts. -/
def dotProduct (a b : List JsNum) : Except String JsNum :=
  if a.length ≠ b.length then
    .error (dimMismatchMsg a.length b.length)
  else
    .ok (dotLoop a b (fin 0))

/-! ## Lemmas about the accumulation loops -/

/-- When the two arrays have the same length, the fused loop of
`cosineSimilarity` computes the same three accumulators as the separate
dot-product and sum-of-squares loops. -/
theorem simLoop_split (a : List JsNum) :
    ∀ (b : List JsNum), a.length = b.length → ∀ (d ma mb : JsNum),
      simLoop a b (d, ma, mb) = (dotLoop a b d, sqLoop a ma, sqLoop b mb) := by
  induction a with
  | nil =>
    intro b hb d ma mb
    cases b with
    | nil => rfl
    | cons y ys => simp at hb
  | cons x xs ih =>
    intro b hb d ma mb
    cases b with
    | nil => simp at hb
    | cons y ys =>
      simp only [List.length_cons, Nat.add_right_cancel_iff] at hb
      simp only [simLoop, dotLoop, sqLoop]
      exact ih ys hb _ _ _

/-- A list of zeros accumulates a zero sum of squares. -/
theorem sqLoop_zero (v : List JsNum) (h : ∀ x ∈ v, x = fin 0) :
    sqLoop v (fin 0) = fin 0 := by
  induction v with
  | nil => rfl
  | cons x xs ih =>
    have hx := h x (List.mem_cons_self x xs)
    subst hx
    have hstep : add (fin 0) (mul (fin 0) (fin 0)) = fin 0 := by
      norm_num [add, mul]
    simp only [sqLoop, hstep]
    exact ih (fun y hy => h y (List.mem_cons_of_mem _ hy))

/-! ## Claims C2, C8, C9 -/

/-- C2: for every pair of vectors (in particular every equal-length pair, and
including the degenerate zero-magnitude case), `cosineSimilarityWithMagnitude`
fed the `calculateMagnitude` values returns exactly what `cosineSimilarity`
returns; this holds for an arbitrary model of `Math.sqrt` because both sides
take the square root of the identical accumulated sum. -/
theorem cosineSimilarityWithMagnitude_eq_cosineSimilarity (sqrtFn : ℚ → ℚ)
    (a b : List JsNum) :
    cosineSimilarityWithMagnitude a b (calculateMagnitude sqrtFn a)
      (calculateMagnitude sqrtFn b) = cosineSimilarity sqrtFn a b := by
  by_cases h : a.length = b.length
  · simp only [cosineSimilarityWithMagnitude, cosineSimilarity, calculateMagnitude, h,
      ne_eq, not_true_eq_false, if_false, ite_false, simLoop_split a b h]
  · simp [cosineSimilarityWithMagnitude, cosineSimilarity, h]

/-- C8: for equal-length vectors where `a` or `b` is the all-zero vector (the
only finite vectors of L2 magnitude 0), `cosineSimilarity` returns exactly 0:
it does not throw and does not return NaN.  `hs` records the IEEE fact
`Math.sqrt 0 = 0` for the abstract square root. -/
theorem cosineSimilarity_zero_vector (sqrtFn : ℚ → ℚ) (a b : List JsNum)
    (hs : sqrtFn 0 = 0) (hlen : a.length = b.length)
    (hzero : (∀ x ∈ a, x = fin 0) ∨ (∀ x ∈ b, x = fin 0)) :
    cosineSimilarity sqrtFn a b = .ok (fin 0) := by
  simp only [cosineSimilarity, hlen, ne_eq, not_true_eq_false, if_false, ite_false,
    simLoop_split a b hlen]
  rcases hzero with hz | hz
  · have hm : sqrtJ sqrtFn (sqLoop a (fin 0)) = fin 0 := by
      rw [sqLoop_zero a hz]
      simp [sqrtJ, hs]
    simp [hm, eqB]
  · have hm : sqrtJ sqrtFn (sqLoop b (fin 0)) = fin 0 := by
      rw [sqLoop_zero b hz]
      simp [sqrtJ, hs]
    simp [hm, eqB]

/-- Witness for C8 at a concrete input: the zero vector against `[3]`. -/
theorem cosineSimilarity_zero_vector_witness :
    cosineSimilarity (fun _ => 0) [fin 0] [fin 3] = .ok (fin 0) :=
  cosineSimilarity_zero_vector (fun _ => 0) [fin 0] [fin 3] rfl rfl
    (Or.inl (by decide))

/-- C9: on vectors of different lengths, `cosineSimilarity`, `dotProduct` and
`euclideanDistance` all fail with the dimension-mismatch error naming both
lengths; none of them computes a value (no silent truncation). -/
theorem dimension_mismatch_errors (sqrtFn : ℚ → ℚ) (a b : List JsNum)
    (h : a.length ≠ b.length) :
    cosineSimilarity sqrtFn a b = .error (dimMismatchMsg a.length b.length) ∧
    dotProduct a b = .error (dimMismatchMsg a.length b.length) ∧
    euclideanDistance sqrtFn a b = .error (dimMismatchMsg a.length b.length) := by
  simp [cosineSimilarity, dotProduct, euclideanDistance, h]

/-- Witness for C9 at the spec's own example `[1,2]` vs `[1,2,3]`. -/
theorem dimension_mismatch_errors_witness :
    cosineSimilarity (fun _ => 0) [fin 1, fin 2] [fin 1, fin 2, fin 3]
        = .error (dimMismatchMsg 2 3) ∧
    dotProduct [fin 1, fin 2] [fin 1, fin 2, fin 3]
        = .error (dimMismatchMsg 2 3) ∧
    euclideanDistance (fun _ => 0) [fin 1, fin 2] [fin 1, fin 2, fin 3]
        = .error (dimMismatchMsg 2 3) :=
  dimension_mismatch_errors (fun _ => 0) [fin 1, fin 2] [fin 1, fin 2, fin 3]
    (by decide)

/-! ## `topKSimilar` and the stable descending sort

ECMAScript `Array.prototype.sort` is stable, and for a consistent comparator
its output is the uniquely determined stable order; the source's
`.sort((a, b) => b.similarity - a.similarity)` is therefore embedded as a
stable insertion sort driven by that comparator value. -/

/-- A scored result as `topKSimilar` returns it. -/
structure Scored where
  id : String
  similarity : JsNum
deriving DecidableEq

/-- A candidate record handed to `topKSimilar`: id, embedding, and the
optional cached magnitude. -/
structure Candidate where
  id : String
  embedding : List JsNum
  magnitude : Option JsNum
deriving DecidableEq

/-- One stable-insertion step of the JS sort: the earlier-sorted element `y`
stays in front of `x` exactly when the comparator `b.similarity -
a.similarity` says `y` sorts strictly before `x`. -/
def insertBySim {α : Type} (sim : α → JsNum) (x : α) : List α → List α
  | [] => [x]
  | y :: ys =>
      if gtB (sub (sim y) (sim x)) (fin 0) then y :: insertBySim sim x ys
      else x :: y :: ys

/-- `.sort((a, b) => b.similarity - a.similarity)` as a stable sort. -/
def sortBySim {α : Type} (sim : α → JsNum) : List α → List α
  | [] => []
  | x :: xs => insertBySim sim x (sortBySim sim xs)

/-- JS `Array.prototype.map` with a callback that may throw: the first throw
propagates and aborts the whole map. -/
def mapE {α β : Type} (f : α → Except String β) : List α → Except String (List β)
  | [] => .ok []
  | x :: xs => do
    let y ← f x
    let ys ← mapE f xs
    pure (y :: ys)

/-- The per-candidate similarity of `topKSimilar`: the cached-magnitude
variant when `vec.magnitude` is present and truthy (a cached magnitude of 0
or NaN is falsy and falls back to the raw variant), else `cosineSimilarity`. -/
def scoreCandidate (sqrtFn : ℚ → ℚ) (query : List JsNum) (vec : Candidate) :
    Except String Scored :=
  match vec.magnitude with
  | some m =>
      if truthy m then
        (cosineSimilarityWithMagnitude query vec.embedding
            (calculateMagnitude sqrtFn query) m).map
          (fun s => { id := vec.id, similarity := s })
      else
        (cosineSimilarity sqrtFn query vec.embedding).map
          (fun s => { id := vec.id, similarity := s })
  | none =>
      (cosineSimilarity sqrtFn query vec.embedding).map
        (fun s => { id := vec.id, similarity := s })

/-- `topKSimilar` of src/convex/lib/vectors.ts (the JS default `threshold =
0` is passed explicitly here): score every candidate, filter by `similarity
>= threshold`, sort by the descending-similarity comparator, `slice(0, k)`. -/
def topKSimilar (sqrtFn : ℚ → ℚ) (query : List JsNum) (vectors : List Candidate)
    (k : ℕ) (threshold : JsNum) : Except String (List Scored) := do
  let similarities ← mapE (scoreCandidate sqrtFn query) vectors
  pure ((sortBySim (fun s => s.similarity)
      (similarities.filter (fun item => geB item.similarity threshold))).take k)

/-- Spec-side insertion step, written from the spec's words: an element moves
in front of exactly the elements of strictly smaller similarity, so elements
of equal similarity keep their original relative order. -/
def specInsertDesc (x : Scored) : List Scored → List Scored
  | [] => [x]
  | y :: ys =>
      if ltB x.similarity y.similarity then y :: specInsertDesc x ys
      else x :: y :: ys

/-- Spec-side stable sort: descending by similarity, ties in original order. -/
def specSortDesc : List Scored → List Scored
  | [] => []
  | x :: xs => specInsertDesc x (specSortDesc xs)

/-- Spec-side `topKSimilar` pipeline over already-scored candidates, written
from the spec's words: keep `similarity >= threshold`, stable-sort
descending, truncate to `k`. -/
def specTopK (scored : List Scored) (k : ℕ) (threshold : JsNum) : List Scored :=
  (specSortDesc (scored.filter (fun s => geB s.similarity threshold))).take k

/-- The JS comparator test `b.similarity - a.similarity > 0` agrees with the
plain similarity comparison `a < b` on every pair of JS numbers, NaN and the
infinities included. -/
theorem gtB_sub_eq_ltB (a b : JsNum) : gtB (sub b a) (fin 0) = ltB a b := by
  cases a <;> cases b <;> simp [gtB, ltB, sub] <;> exact sub_pos

theorem insertBySim_eq_specInsertDesc (x : Scored) (l : List Scored) :
    insertBySim (fun s => s.similarity) x l = specInsertDesc x l := by
  induction l with
  | nil => rfl
  | cons y ys ih =>
    simp only [insertBySim, specInsertDesc, gtB_sub_eq_ltB, ih]

theorem sortBySim_eq_specSortDesc (l : List Scored) :
    sortBySim (fun s => s.similarity) l = specSortDesc l := by
  induction l with
  | nil => rfl
  | cons x xs ih =>
    simp only [sortBySim, specSortDesc, ih, insertBySim_eq_specInsertDesc]

theorem mem_specInsertDesc {z x : Scored} {l : List Scored} :
    z ∈ specInsertDesc x l ↔ z = x ∨ z ∈ l := by
  induction l with
  | nil => simp [specInsertDesc]
  | cons y ys ih =>
    simp only [specInsertDesc]
    split <;> simp only [List.mem_cons, ih] <;> tauto

theorem mem_specSortDesc {z : Scored} {l : List Scored} :
    z ∈ specSortDesc l ↔ z ∈ l := by
  induction l with
  | nil => simp [specSortDesc]
  | cons x xs ih =>
    simp only [specSortDesc, mem_specInsertDesc, ih, List.mem_cons]

theorem specInsertDesc_pairwise (x : Scored) (l : List Scored)
    (hx : x.similarity ≠ nan) (hl : ∀ s ∈ l, s.similarity ≠ nan)
    (h : l.Pairwise (fun a b => ltB a.similarity b.similarity = false)) :
    (specInsertDesc x l).Pairwise
      (fun a b => ltB a.similarity b.similarity = false) := by
  induction l with
  | nil => simp [specInsertDesc]
  | cons y ys ih =>
    rcases List.pairwise_cons.mp h with ⟨hy, hys⟩
    by_cases hlt : ltB x.similarity y.similarity
    · simp only [specInsertDesc, hlt, if_true]
      refine List.pairwise_cons.mpr ⟨?_, ?_⟩
      · intro z hz
        rcases mem_specInsertDesc.mp hz with rfl | hz
        · exact ltB_asymm _ _ hlt
        · exact hy z hz
      · exact ih (fun s hs => hl s (List.mem_cons_of_mem _ hs)) hys
    · simp only [specInsertDesc, hlt, if_false]
      refine List.pairwise_cons.mpr ⟨?_, h⟩
      intro z hz
      rcases List.mem_cons.mp hz with rfl | hz
      · simpa using hlt
      · exact ltB_neg_trans _ _ _ hx
          (hl y (List.mem_cons_self y ys)) (hl z (List.mem_cons_of_mem _ hz))
          (by simpa using hlt) (hy z hz)

theorem specSortDesc_pairwise (l : List Scored)
    (hl : ∀ s ∈ l, s.similarity ≠ nan) :
    (specSortDesc l).Pairwise
      (fun a b => ltB a.similarity b.similarity = false) := by
  induction l with
  | nil => simp [specSortDesc]
  | cons x xs ih =>
    exact specInsertDesc_pairwise x (specSortDesc xs)
      (hl x (List.mem_cons_self x xs))
      (fun s hs => hl s (List.mem_cons_of_mem _ (mem_specSortDesc.mp hs)))
      (ih (fun s hs => hl s (List.mem_cons_of_mem _ hs)))

theorem specInsertDesc_filter_eq (x : Scored) (l : List Scored) (v : JsNum) :
    (specInsertDesc x l).filter (fun s => decide (s.similarity = v))
      = if x.similarity = v then
          x :: l.filter (fun s => decide (s.similarity = v))
        else l.filter (fun s => decide (s.similarity = v)) := by
  induction l with
  | nil =>
    by_cases hx : x.similarity = v <;> simp [specInsertDesc, List.filter, hx]
  | cons y ys ih =>
    simp only [specInsertDesc]
    split
    next hlt =>
      have hne : x.similarity ≠ y.similarity :=
        ltB_true_ne x.similarity y.similarity hlt
      by_cases hx : x.similarity = v
      · subst hx
        have hy : ¬ y.similarity = x.similarity := fun hh => hne hh.symm
        simp [List.filter_cons, hy, ih]
      · simp [List.filter_cons, hx, ih]
    next _ =>
      by_cases hx : x.similarity = v <;> simp [List.filter_cons, hx]

theorem specSortDesc_stable (l : List Scored) (v : JsNum) :
    (specSortDesc l).filter (fun s => decide (s.similarity = v))
      = l.filter (fun s => decide (s.similarity = v)) := by
  induction l with
  | nil => rfl
  | cons x xs ih =>
    by_cases hx : x.similarity = v <;>
      simp [specSortDesc, specInsertDesc_filter_eq, hx, List.filter_cons, ih]

theorem cosineSimilarityWithMagnitude_isOk (a b : List JsNum) (ma mb : JsNum)
    (h : a.length = b.length) :
    ∃ v, cosineSimilarityWithMagnitude a b ma mb = .ok v := by
  unfold cosineSimilarityWithMagnitude
  rw [if_neg (by simp [h])]
  split <;> exact ⟨_, rfl⟩

theorem cosineSimilarity_isOk (sqrtFn : ℚ → ℚ) (a b : List JsNum)
    (h : a.length = b.length) :
    ∃ v, cosineSimilarity sqrtFn a b = .ok v := by
  unfold cosineSimilarity
  rw [if_neg (by simp [h])]
  dsimp only
  split <;> exact ⟨_, rfl⟩

theorem scoreCandidate_isOk (sqrtFn : ℚ → ℚ) (query : List JsNum)
    (vec : Candidate) (h : vec.embedding.length = query.length) :
    ∃ s, scoreCandidate sqrtFn query vec = .ok s := by
  unfold scoreCandidate
  rcases vec.magnitude with _ | m
  · rcases cosineSimilarity_isOk sqrtFn query vec.embedding h.symm with ⟨v, hv⟩
    exact ⟨_, by dsimp only; rw [hv]; rfl⟩
  · by_cases hm : truthy m
    · rcases cosineSimilarityWithMagnitude_isOk query vec.embedding
        (calculateMagnitude sqrtFn query) m h.symm with ⟨v, hv⟩
      exact ⟨_, by dsimp only; rw [if_pos hm, hv]; rfl⟩
    · rcases cosineSimilarity_isOk sqrtFn query vec.embedding h.symm with ⟨v, hv⟩
      exact ⟨_, by dsimp only; rw [if_neg hm, hv]; rfl⟩

theorem mapE_isOk {α β : Type} (f : α → Except String β) (l : List α)
    (h : ∀ x ∈ l, ∃ y, f x = .ok y) : ∃ ys, mapE f l = .ok ys := by
  induction l with
  | nil => exact ⟨[], rfl⟩
  | cons x xs ih =>
    rcases h x (List.mem_cons_self x xs) with ⟨y, hy⟩
    rcases ih (fun z hz => h z (List.mem_cons_of_mem _ hz)) with ⟨ys, hys⟩
    exact ⟨y :: ys, by simp [mapE, hy, hys]; rfl⟩

/-- C1: on candidates whose embeddings match the query's dimension,
`topKSimilar` returns exactly the spec pipeline applied to the scored
candidates — the candidates with `similarity >= threshold` (equality
included), stable-sorted descending by similarity with ties in original
candidate order, truncated to `k` — and that result has at most `k` entries,
only entries at or above the threshold, is non-ascending in similarity
(descending order), and the sort keeps every group of tied similarities in
the original candidate order. -/
theorem topKSimilar_spec (sqrtFn : ℚ → ℚ) (query : List JsNum)
    (vectors : List Candidate) (k : ℕ) (threshold : JsNum)
    (hlen : ∀ c ∈ vectors, c.embedding.length = query.length) :
    ∃ scored, mapE (scoreCandidate sqrtFn query) vectors = .ok scored ∧
      topKSimilar sqrtFn query vectors k threshold
          = .ok (specTopK scored k threshold) ∧
      (specTopK scored k threshold).length ≤ k ∧
      (∀ s ∈ specTopK scored k threshold, geB s.similarity threshold = true) ∧
      (specTopK scored k threshold).Pairwise
        (fun a b => ltB a.similarity b.similarity = false) ∧
      (∀ v : JsNum,
        (specSortDesc (scored.filter (fun s => geB s.similarity threshold))).filter
            (fun s => decide (s.similarity = v))
          = (scored.filter (fun s => geB s.similarity threshold)).filter
            (fun s => decide (s.similarity = v))) := by
  rcases mapE_isOk (scoreCandidate sqrtFn query) vectors
      (fun c hc => scoreCandidate_isOk sqrtFn query c (hlen c hc)) with ⟨scored, hok⟩
  refine ⟨scored, hok, ?_, ?_, ?_, ?_, ?_⟩
  · simp [topKSimilar, hok, specTopK, sortBySim_eq_specSortDesc]
  · simpa [specTopK, List.length_take] using min_le_left k _
  · intro s hs
    have hs2 : s ∈ specSortDesc
        (scored.filter (fun s => geB s.similarity threshold)) :=
      List.take_subset _ _ hs
    exact (List.mem_filter.mp (mem_specSortDesc.mp hs2)).2
  · refine List.Pairwise.sublist (List.take_sublist _ _) ?_
    refine specSortDesc_pairwise _ ?_
    intro s hs
    exact geB_right_not_nan _ _ (List.mem_filter.mp hs).2
  · intro v
    exact specSortDesc_stable _ v

/-- Witness for C1 at a concrete input: a single candidate identical to the
query, `k = 1`, threshold `0`. -/
theorem topKSimilar_spec_witness :
    ∃ scored,
      mapE (scoreCandidate (fun _ => 1) [fin 1])
          [{ id := "a", embedding := [fin 1], magnitude := none }] = .ok scored ∧
      topKSimilar (fun _ => 1) [fin 1]
          [{ id := "a", embedding := [fin 1], magnitude := none }] 1 (fin 0)
          = .ok (specTopK scored 1 (fin 0)) ∧
      (specTopK scored 1 (fin 0)).length ≤ 1 ∧
      (∀ s ∈ specTopK scored 1 (fin 0), geB s.similarity (fin 0) = true) ∧
      (specTopK scored 1 (fin 0)).Pairwise
        (fun a b => ltB a.similarity b.similarity = false) ∧
      (∀ v : JsNum,
        (specSortDesc (scored.filter (fun s => geB s.similarity (fin 0)))).filter
            (fun s => decide (s.similarity = v))
          = (scored.filter (fun s => geB s.similarity (fin 0))).filter
            (fun s => decide (s.similarity = v))) :=
  topKSimilar_spec (fun _ => 1) [fin 1]
    [{ id := "a", embedding := [fin 1], magnitude := none }] 1 (fin 0)
    (by decide)

/-! ## src/convex/functions/vectorSearchV2.ts — `searchChunksV2`

The handler receives the `chunkEmbeddings` rows as the platform scans them:
in ascending `_creationTime` (insertion) order — the handler never calls
`.order("desc")` — with `withIndex("by_model", eq model)` modelled as the
in-order rows whose `model` field matches.  The pagination cursor string
`"createdAt:_id"` is modelled by the `(createdAt, _id)` pair it encodes. -/

/-- A row of the `chunkEmbeddings` table (the fields the handler reads). -/
structure ChunkEmbeddingDoc where
  id : String
  chunkId : String
  embedding : List JsNum
  magnitude : JsNum
  model : String
  createdAt : Int
deriving DecidableEq

/-- One scored entry of a `searchChunksV2` page (the chunk/document payload
hydration by `ctx.db.get` is outside every claim and omitted). -/
structure ScoredEmbedding where
  embeddingId : String
  similarity : JsNum
deriving DecidableEq

/-- The page a `searchChunksV2` call returns (without the wall-clock
`searchTimeMs` field). -/
structure SearchV2Response where
  results : List ScoredEmbedding
  nextCursor : Option (Int × String)
  hasMore : Bool
deriving DecidableEq

/-- JS `args.x || d` defaulting for a numeric argument modelled as a natural
number: an absent or zero value falls back to the default. -/
def orDefaultNat : Option ℕ → ℕ → ℕ
  | some n, d => if n = 0 then d else n
  | none, d => d

/-- JS `args.x || d` defaulting for a numeric argument: an absent or falsy
(0 or NaN) value falls back to the default. -/
def orDefaultNum : Option JsNum → JsNum → JsNum
  | some v, d => if truthy v then v else d
  | none, d => d

/-- The keyset predicate the handler installs for a cursor `(t, id)`:
`createdAt < t OR (createdAt == t AND _id < id)` (Convex compares string ids
lexicographically). -/
def cursorPred (t : Int) (idStr : String) (r : ChunkEmbeddingDoc) : Bool :=
  decide (r.createdAt < t ∨ (r.createdAt = t ∧ r.id < idStr))

/-- The candidate stream before the cursor filter: the whole table, or the
`by_model` index entries for the requested model, in scan order. -/
def modelFilter (model : Option String) (pool : List ChunkEmbeddingDoc) :
    List ChunkEmbeddingDoc :=
  match model with
  | some m => pool.filter (fun r => r.model = m)
  | none => pool

/-- The cursor filter, applied only when a cursor was supplied. -/
def applyCursor (cursor : Option (Int × String)) (l : List ChunkEmbeddingDoc) :
    List ChunkEmbeddingDoc :=
  match cursor with
  | some (t, idStr) => l.filter (cursorPred t idStr)
  | none => l

/-- The scan window of one `searchChunksV2` page: model filter, cursor
filter, `.take(1000)`. -/
def scanWindow (pool : List ChunkEmbeddingDoc) (model : Option String)
    (cursor : Option (Int × String)) : List ChunkEmbeddingDoc :=
  (applyCursor cursor (modelFilter model pool)).take 1000

/-- The cursor minted from a scan window: `createdAt:_id` of the last
scanned row, null for an empty window. -/
def pageCursor (window : List ChunkEmbeddingDoc) : Option (Int × String) :=
  window.getLast?.map (fun last => (last.createdAt, last.id))

/-- The per-row scoring step of `searchChunksV2` (the handler computes the
query magnitude once before the loop; inlining that pure value here is
value-identical). -/
def scoreEmbedding (sqrtFn : ℚ → ℚ) (embedding : List JsNum)
    (emb : ChunkEmbeddingDoc) : Except String ScoredEmbedding :=
  (cosineSimilarityWithMagnitude embedding emb.embedding
      (sqrtJ sqrtFn (sqLoop embedding (fin 0))) emb.magnitude).map
    (fun sim => { embeddingId := emb.id, similarity := sim })

/-- `searchChunksV2` of src/convex/functions/vectorSearchV2.ts: defaults
`limit || 10` and `threshold || 0.7`, takes the scan window, scores it with
`cosineSimilarityWithMagnitude` (a thrown dimension mismatch propagates),
filters by `similarity >= threshold`, sorts descending, truncates to
`limit`, and mints `nextCursor`/`hasMore` from the scan window itself. -/
def searchChunksV2 (sqrtFn : ℚ → ℚ) (embedding : List JsNum)
    (limit : Option ℕ) (threshold : Option JsNum)
    (cursor : Option (Int × String)) (model : Option String)
    (pool : List ChunkEmbeddingDoc) : Except String SearchV2Response :=
  let lim := orDefaultNat limit 10
  let thr := orDefaultNum threshold (fin (mkRat 7 10))
  let embeddings := scanWindow pool model cursor
  (mapE (scoreEmbedding sqrtFn embedding) embeddings).map (fun scored =>
    { results := (sortBySim (fun r : ScoredEmbedding => r.similarity)
          (scored.filter (fun r => geB r.similarity thr))).take lim
      nextCursor := pageCursor embeddings
      hasMore := decide (embeddings.length = 1000) })

/-- The scan windows of a pagination session: call after call, each next
call resuming from the minted cursor, until a page reports `hasMore =
false` (window shorter than the cap); `fuel` bounds the iteration. -/
def sessionWindows (pool : List ChunkEmbeddingDoc) (model : Option String) :
    ℕ → Option (Int × String) → List (List ChunkEmbeddingDoc)
  | 0, _ => []
  | fuel + 1, cursor =>
      let w := scanWindow pool model cursor
      if w.length = 1000 then w :: sessionWindows pool model fuel (pageCursor w)
      else [w]

/-! ## src/convex/functions/vectorSearch.ts — `vectorSearch` and
`searchChunks` -/

/-- A row of the `vectorMemories` table (the fields the handler reads). -/
structure VectorMemoryDoc where
  id : String
  memoryType : String
  agentId : Option String
  embedding : List JsNum
  magnitude : JsNum
deriving DecidableEq

/-- One scored entry of a `vectorSearch` result. -/
structure ScoredMemory where
  documentId : String
  similarity : JsNum
deriving DecidableEq

/-- The candidate selection of `vectorSearch`: the four index/filter branches
over the optional type and agent filters, each capped at 1000 rows in scan
order. -/
def vsCandidates (memoryType agentId : Option String)
    (pool : List VectorMemoryDoc) : List VectorMemoryDoc :=
  match memoryType, agentId with
  | some mt, some ag =>
      ((pool.filter (fun d => d.memoryType = mt)).filter
        (fun d => d.agentId = some ag)).take 1000
  | some mt, none => (pool.filter (fun d => d.memoryType = mt)).take 1000
  | none, some ag => (pool.filter (fun d => d.agentId = some ag)).take 1000
  | none, none => pool.take 1000

/-- The per-row scoring step of `vectorSearch` (the query magnitude, a pure
value the handler computes once, is inlined). -/
def scoreMemory (sqrtFn : ℚ → ℚ) (embedding : List JsNum)
    (doc : VectorMemoryDoc) : Except String ScoredMemory :=
  (cosineSimilarityWithMagnitude embedding doc.embedding
      (sqrtJ sqrtFn (sqLoop embedding (fin 0))) doc.magnitude).map
    (fun sim => { documentId := doc.id, similarity := sim })

/-- `vectorSearch` of src/convex/functions/vectorSearch.ts: defaults, the
candidate selection above, scoring with the cached magnitudes, threshold
filter, descending sort, truncation. -/
def vectorSearch (sqrtFn : ℚ → ℚ) (embedding : List JsNum)
    (memoryType : Option String) (limit : Option ℕ) (threshold : Option JsNum)
    (agentId : Option String) (pool : List VectorMemoryDoc) :
    Except String (List ScoredMemory) :=
  let lim := orDefaultNat limit 10
  let thr := orDefaultNum threshold (fin (mkRat 7 10))
  let candidates := vsCandidates memoryType agentId pool
  (mapE (scoreMemory sqrtFn embedding) candidates).map (fun scored =>
    (sortBySim (fun r : ScoredMemory => r.similarity)
      (scored.filter (fun r => geB r.similarity thr))).take lim)

/-- A row of the `chunks` table as `searchChunks` reads it: embedding and
magnitude may be absent. -/
structure ChunkDoc where
  id : String
  documentId : String
  embedding : Option (List JsNum)
  magnitude : Option JsNum
deriving DecidableEq

/-- One scored entry of a `searchChunks` result. -/
structure ScoredChunk where
  chunkId : String
  similarity : JsNum
deriving DecidableEq

/-- The per-row step of `searchChunks`: null when `!chunk.embedding ||
!chunk.magnitude` (an array is always truthy, a magnitude of 0 or NaN is
falsy), else the score (the once-computed query magnitude is inlined). -/
def scoreChunk (sqrtFn : ℚ → ℚ) (embedding : List JsNum) (c : ChunkDoc) :
    Except String (Option ScoredChunk) :=
  match c.embedding, c.magnitude with
  | some e, some m =>
      if truthy m then
        (cosineSimilarityWithMagnitude embedding e
            (sqrtJ sqrtFn (sqLoop embedding (fin 0))) m).map
          (fun sim => some { chunkId := c.id, similarity := sim })
      else pure none
  | _, _ => pure none

/-- `searchChunks` of src/convex/functions/vectorSearch.ts: keeps the chunks
whose `embedding` and `magnitude` fields are present (`q.neq(..., undefined)`)
capped at 1000, maps each row with `scoreChunk`, filters out the nulls and
the scores below the threshold, sorts descending, truncates. -/
def searchChunks (sqrtFn : ℚ → ℚ) (embedding : List JsNum)
    (limit : Option ℕ) (threshold : Option JsNum) (pool : List ChunkDoc) :
    Except String (List ScoredChunk) :=
  let lim := orDefaultNat limit 10
  let thr := orDefaultNum threshold (fin (mkRat 7 10))
  let chunks := (pool.filter
      (fun c => c.embedding.isSome && c.magnitude.isSome)).take 1000
  (mapE (scoreChunk sqrtFn embedding) chunks).map (fun scored =>
    (sortBySim (fun r : ScoredChunk => r.similarity)
      ((scored.filterMap id).filter (fun r => geB r.similarity thr))).take lim)

/-! ## Claims C10, C7, C5 -/

theorem orDefaultNat_zero (d : ℕ) : orDefaultNat (some 0) d = orDefaultNat none d := by
  simp [orDefaultNat]

theorem orDefaultNum_zero (d : JsNum) :
    orDefaultNum (some (fin 0)) d = orDefaultNum none d := by
  simp [orDefaultNum, truthy]

/-- C10: every search handler defaults its numeric arguments with JS `||`,
so an explicitly passed `threshold = 0` or `limit = 0` behaves exactly as an
omitted argument — the effective threshold becomes 0.7 and the effective
limit becomes 10 — in `vectorSearch`, `searchChunks` and `searchChunksV2`
alike. -/
theorem zero_args_use_defaults (sqrtFn : ℚ → ℚ) (embedding : List JsNum)
    (memoryType agentId model : Option String) (lim : Option ℕ)
    (thr : Option JsNum) (cursor : Option (Int × String))
    (poolV : List VectorMemoryDoc) (poolC : List ChunkDoc)
    (poolE : List ChunkEmbeddingDoc) :
    vectorSearch sqrtFn embedding memoryType (some 0) thr agentId poolV
        = vectorSearch sqrtFn embedding memoryType none thr agentId poolV ∧
    vectorSearch sqrtFn embedding memoryType lim (some (fin 0)) agentId poolV
        = vectorSearch sqrtFn embedding memoryType lim none agentId poolV ∧
    searchChunks sqrtFn embedding (some 0) thr poolC
        = searchChunks sqrtFn embedding none thr poolC ∧
    searchChunks sqrtFn embedding lim (some (fin 0)) poolC
        = searchChunks sqrtFn embedding lim none poolC ∧
    searchChunksV2 sqrtFn embedding (some 0) thr cursor model poolE
        = searchChunksV2 sqrtFn embedding none thr cursor model poolE ∧
    searchChunksV2 sqrtFn embedding lim (some (fin 0)) cursor model poolE
        = searchChunksV2 sqrtFn embedding lim none cursor model poolE ∧
    orDefaultNat (some 0) 10 = 10 ∧
    orDefaultNum (some (fin 0)) (fin (mkRat 7 10)) = fin (mkRat 7 10) :=
  ⟨by rw [vectorSearch, vectorSearch, orDefaultNat_zero],
   by rw [vectorSearch, vectorSearch, orDefaultNum_zero],
   by rw [searchChunks, searchChunks, orDefaultNat_zero],
   by rw [searchChunks, searchChunks, orDefaultNum_zero],
   by rw [searchChunksV2, searchChunksV2, orDefaultNat_zero],
   by rw [searchChunksV2, searchChunksV2, orDefaultNum_zero],
   by simp [orDefaultNat],
   by simp [orDefaultNum, truthy]⟩

/-- C7: two `searchChunksV2` calls over the same pool with the same cursor
and model filter return the same `nextCursor` and `hasMore` whatever their
threshold and limit arguments: both fields are minted from the scan window,
which those arguments never enter. -/
theorem cursor_independent_of_threshold_limit (sqrtFn : ℚ → ℚ)
    (embedding : List JsNum) (cursor : Option (Int × String))
    (model : Option String) (pool : List ChunkEmbeddingDoc)
    (lim1 lim2 : Option ℕ) (thr1 thr2 : Option JsNum) :
    (searchChunksV2 sqrtFn embedding lim1 thr1 cursor model pool).map
        (fun r => (r.nextCursor, r.hasMore))
      = (searchChunksV2 sqrtFn embedding lim2 thr2 cursor model pool).map
        (fun r => (r.nextCursor, r.hasMore)) := by
  rw [searchChunksV2, searchChunksV2]
  cases h : mapE (scoreEmbedding sqrtFn embedding) (scanWindow pool model cursor) with
  | error e => simp [h, Except.map]
  | ok scored => simp [h, Except.map]

/-- C5: with a cursor `(t, id)` supplied, the scan window consists exactly
of the model-eligible candidates strictly before `(t, id)` in the keyset
ordering — `createdAt < t` or (`createdAt = t` and `id` smaller) — up to the
fixed cap of 1000: every scanned row satisfies the predicate (so nothing at
or after `(t, id)` is scanned), the window is an in-order sublist of the
matching rows, its length is the cap-bounded count, and when at most 1000
rows match, the window is all of them. -/
theorem scanWindow_keyset (pool : List ChunkEmbeddingDoc)
    (model : Option String) (t : Int) (idStr : String) :
    (∀ r ∈ scanWindow pool model (some (t, idStr)),
        r.createdAt < t ∨ (r.createdAt = t ∧ r.id < idStr)) ∧
    List.Sublist (scanWindow pool model (some (t, idStr)))
        ((modelFilter model pool).filter (cursorPred t idStr)) ∧
    (scanWindow pool model (some (t, idStr))).length
        = min 1000 ((modelFilter model pool).filter (cursorPred t idStr)).length ∧
    (((modelFilter model pool).filter (cursorPred t idStr)).length ≤ 1000 →
      scanWindow pool model (some (t, idStr))
        = (modelFilter model pool).filter (cursorPred t idStr)) := by
  refine ⟨?_, ?_, ?_, ?_⟩
  · intro r hr
    have hm : r ∈ (modelFilter model pool).filter (cursorPred t idStr) :=
      List.take_subset _ _ hr
    exact of_decide_eq_true (List.mem_filter.mp hm).2
  · exact List.take_sublist _ _
  · exact List.length_take _ _
  · intro hle
    exact List.take_of_length_le hle

/-! ## Claim C4 -/

theorem pageCursor_eq_none_iff (w : List ChunkEmbeddingDoc) :
    pageCursor w = none ↔ w = [] := by
  cases w with
  | nil => simp [pageCursor]
  | cons a l => simp [pageCursor, List.getLast?]

/-- A `chunkEmbeddings` row used as a concrete input. -/
def cexDoc : ChunkEmbeddingDoc :=
  { id := "e1", chunkId := "c1", embedding := [fin 1], magnitude := fin 1,
    model := "m", createdAt := 5 }

/-- A `chunkEmbeddings` row with a zero-dimensional embedding, used as a
concrete input. -/
def emptyEmbDoc : ChunkEmbeddingDoc :=
  { id := "e1", chunkId := "c1", embedding := [], magnitude := fin 1,
    model := "m", createdAt := 5 }

/-- C4 counterexample: a pool of one row gives a scan window far below the
cap of 1000 and indeed `hasMore = false`, but `nextCursor` is not null — it
encodes the single scanned row — so the claimed `nextCursor = null` fails. -/
theorem terminal_page_nonnull_cursor_counterexample :
    (scanWindow [emptyEmbDoc] none none).length < 1000 ∧
    searchChunksV2 (fun _ => 0) [] none none none none [emptyEmbDoc]
        = .ok { results := [], nextCursor := some (5, "e1"), hasMore := false } ∧
    ¬ ((searchChunksV2 (fun _ => 0) [] none none none none [emptyEmbDoc]).map
        (fun r => r.nextCursor) = .ok none) := by
  have h2 : searchChunksV2 (fun _ => 0) [] none none none none [emptyEmbDoc]
      = .ok { results := [], nextCursor := some (5, "e1"), hasMore := false } := by
    rfl
  refine ⟨by decide, h2, ?_⟩
  rw [h2]
  intro hcontra
  simp [Except.map] at hcontra

/-- C4 amended: a scan window below the cap of 1000 gives `hasMore = false`,
and `nextCursor` is null exactly when that window is empty — on a non-empty
final window the cursor encodes the last scanned row instead of being null. -/
theorem searchChunksV2_terminal_page (sqrtFn : ℚ → ℚ) (embedding : List JsNum)
    (lim : Option ℕ) (thr : Option JsNum) (cursor : Option (Int × String))
    (model : Option String) (pool : List ChunkEmbeddingDoc)
    (r : SearchV2Response)
    (hcap : (scanWindow pool model cursor).length < 1000)
    (hok : searchChunksV2 sqrtFn embedding lim thr cursor model pool = .ok r) :
    r.hasMore = false ∧
    (r.nextCursor = none ↔ scanWindow pool model cursor = []) := by
  rw [searchChunksV2] at hok
  cases h : mapE (scoreEmbedding sqrtFn embedding) (scanWindow pool model cursor) with
  | error e =>
    rw [h] at hok
    simp [Except.map] at hok
  | ok scored =>
    rw [h] at hok
    simp only [Except.map, Except.ok.injEq] at hok
    subst hok
    refine ⟨by simpa using Nat.ne_of_lt hcap, ?_⟩
    simpa using pageCursor_eq_none_iff (scanWindow pool model cursor)

/-- Witness for the amended C4 at a concrete input: the empty pool. -/
theorem searchChunksV2_terminal_page_witness :
    ({ results := [], nextCursor := none, hasMore := false } :
        SearchV2Response).hasMore = false ∧
    (({ results := [], nextCursor := none, hasMore := false } :
        SearchV2Response).nextCursor = none ↔ scanWindow [] none none = []) :=
  searchChunksV2_terminal_page (fun _ => 0) [] none none none none []
    { results := [], nextCursor := none, hasMore := false }
    (by decide) (by rfl)

/-! ## Claim C3 -/

theorem sqLoop_nan_acc (l : List JsNum) : sqLoop l nan = nan := by
  induction l with
  | nil => rfl
  | cons x xs ih => simpa [sqLoop, add_nan_left] using ih

theorem sqLoop_of_nan_mem (l : List JsNum) (h : nan ∈ l) (acc : JsNum) :
    sqLoop l acc = nan := by
  induction l generalizing acc with
  | nil => simp at h
  | cons x xs ih =>
    rcases List.mem_cons.mp h with hx | hx
    · rw [← hx]
      simp only [sqLoop, mul_nan_left, add_nan_right]
      exact sqLoop_nan_acc xs
    · exact ih hx _

theorem div_nan_right (x : JsNum) : div x nan = nan := by cases x <;> rfl

theorem geB_nan_left (t : JsNum) : geB nan t = false := by
  cases t <;> rfl

/-- With a NaN entry in the query, `cosineSimilarityWithMagnitude` (as every
search handler calls it, with the query magnitude computed by
`reduce`/`Math.sqrt`) succeeds and yields a similarity — NaN, or 0 for a
zero-magnitude candidate — that fails the default `>= 0.7` filter. -/
theorem cosineWithMag_nan_query (sqrtFn : ℚ → ℚ) (embedding e : List JsNum)
    (m : JsNum) (hnan : nan ∈ embedding) (hlen : e.length = embedding.length) :
    ∃ v, cosineSimilarityWithMagnitude embedding e
        (sqrtJ sqrtFn (sqLoop embedding (fin 0))) m = .ok v ∧
      geB v (fin (mkRat 7 10)) = false := by
  have hq : sqrtJ sqrtFn (sqLoop embedding (fin 0)) = nan := by
    rw [sqLoop_of_nan_mem embedding hnan]
    rfl
  rw [hq]
  unfold cosineSimilarityWithMagnitude
  rw [if_neg (by simp [hlen])]
  dsimp only
  cases hm : eqB m (fin 0) with
  | true =>
    refine ⟨fin 0, ?_, by decide⟩
    rw [if_pos (show (eqB nan (fin 0) || true) = true from rfl)]
  | false =>
    refine ⟨nan, ?_, rfl⟩
    rw [if_neg (show ¬ ((eqB nan (fin 0) || false) = true) by decide),
      mul_nan_left, div_nan_right]

theorem mapE_ok_filter_empty {α β : Type} (f : α → Except String β)
    (p : β → Bool) (l : List α)
    (h : ∀ x ∈ l, ∃ y, f x = .ok y ∧ p y = false) :
    ∃ ys, mapE f l = .ok ys ∧ ys.filter p = [] := by
  induction l with
  | nil => exact ⟨[], rfl, rfl⟩
  | cons x xs ih =>
    rcases h x (List.mem_cons_self x xs) with ⟨y, hy, hpy⟩
    rcases ih (fun z hz => h z (List.mem_cons_of_mem _ hz)) with ⟨ys, hys, hfil⟩
    refine ⟨y :: ys, ?_, ?_⟩
    · simp only [mapE, hy, hys]
      rfl
    · rw [List.filter_cons_of_neg (by simp [hpy]), hfil]

/-- A `vectorMemories` row used as a concrete input. -/
def memDoc : VectorMemoryDoc :=
  { id := "m1", memoryType := "semantic", agentId := none,
    embedding := [fin 1], magnitude := fin 1 }

/-- C3 counterexample: with the query embedding `[NaN]` neither
`searchChunksV2` nor `vectorSearch` raises any input-validation error — both
scan their candidate and return a successful (empty) result. -/
theorem nan_query_not_rejected_counterexample :
    searchChunksV2 (fun _ => 0) [JsNum.nan] none none none none [cexDoc]
        = .ok { results := [], nextCursor := some (5, "e1"), hasMore := false } ∧
    vectorSearch (fun _ => 0) [JsNum.nan] none none none none [memDoc]
        = .ok [] := by
  exact ⟨by rfl, by rfl⟩

/-- C3 amended: neither handler validates the query embedding; when it
contains NaN (and the candidate dimensions match), every candidate's
similarity evaluates to NaN — or 0 for a zero-magnitude candidate — which
fails the default `>= 0.7` threshold, so the call succeeds with an empty
results list rather than failing. -/
theorem nan_query_returns_empty_success (sqrtFn : ℚ → ℚ)
    (embedding : List JsNum) (lim : Option ℕ) (cursor : Option (Int × String))
    (model memoryType agentId : Option String)
    (poolE : List ChunkEmbeddingDoc) (poolV : List VectorMemoryDoc)
    (hnan : JsNum.nan ∈ embedding)
    (hlenE : ∀ d ∈ scanWindow poolE model cursor,
      d.embedding.length = embedding.length)
    (hlenV : ∀ d ∈ vsCandidates memoryType agentId poolV,
      d.embedding.length = embedding.length) :
    (∃ r, searchChunksV2 sqrtFn embedding lim none cursor model poolE = .ok r ∧
        r.results = []) ∧
    vectorSearch sqrtFn embedding memoryType lim none agentId poolV = .ok [] := by
  constructor
  · rcases mapE_ok_filter_empty (scoreEmbedding sqrtFn embedding)
        (fun r => geB r.similarity (fin (mkRat 7 10))) (scanWindow poolE model cursor)
        (fun d hd => by
          rcases cosineWithMag_nan_query sqrtFn embedding d.embedding d.magnitude
            hnan (hlenE d hd) with ⟨v, hv, hgev⟩
          refine ⟨ScoredEmbedding.mk d.id v, ?_, ?_⟩
          · simp [scoreEmbedding, hv, Except.map]
          · simpa using hgev)
      with ⟨scored, hok, hfil⟩
    refine ⟨{ results := [],
              nextCursor := pageCursor (scanWindow poolE model cursor),
              hasMore := decide ((scanWindow poolE model cursor).length = 1000) },
      ?_, rfl⟩
    rw [searchChunksV2, hok]
    simp only [Except.map, orDefaultNum]
    rw [hfil]
    simp [sortBySim, List.take_nil]
  · rcases mapE_ok_filter_empty (scoreMemory sqrtFn embedding)
        (fun r => geB r.similarity (fin (mkRat 7 10))) (vsCandidates memoryType agentId poolV)
        (fun d hd => by
          rcases cosineWithMag_nan_query sqrtFn embedding d.embedding d.magnitude
            hnan (hlenV d hd) with ⟨v, hv, hgev⟩
          refine ⟨ScoredMemory.mk d.id v, ?_, ?_⟩
          · simp [scoreMemory, hv, Except.map]
          · simpa using hgev)
      with ⟨scored, hok, hfil⟩
    rw [vectorSearch, hok]
    simp only [Except.map, orDefaultNum]
    rw [hfil]
    simp [sortBySim, List.take_nil]

/-- Witness for the amended C3 at a concrete input. -/
theorem nan_query_returns_empty_success_witness :
    (∃ r, searchChunksV2 (fun _ => 0) [JsNum.nan] none none none none [cexDoc]
        = .ok r ∧ r.results = []) ∧
    vectorSearch (fun _ => 0) [JsNum.nan] none none none none [memDoc]
        = .ok [] :=
  nan_query_returns_empty_success (fun _ => 0) [JsNum.nan] none none none
    none none [cexDoc] [memDoc] (by decide) (by decide) (by decide)

/-! ## Claim C6

The platform scans `chunkEmbeddings` in ascending creation order (the
handler never calls `.order("desc")`), while the cursor predicate resumes
*strictly before* `(t, id)`; on a pool larger than the cap the second page
therefore re-scans the oldest rows and the newest row is never scanned. -/

/-- The `i`-th row of a 1001-row pool inserted with strictly increasing
`createdAt`. -/
def ascDoc (i : ℕ) : ChunkEmbeddingDoc :=
  { id := toString i, chunkId := "c", embedding := [], magnitude := fin 1,
    model := "m", createdAt := (i : Int) }

/-- A pool one row larger than the scan cap, in insertion order. -/
def ascPool : List ChunkEmbeddingDoc := (List.range 1001).map ascDoc

/-- C6, the code at the failing input: on a 1001-row pool the first page
scans rows 0–999 and reports `hasMore = true` with cursor `(999, "999")`;
the second page's window satisfies the strictly-before predicate, so the
session ends after two pages — but the newest row (`createdAt = 1000`) is
never scanned and the oldest row is scanned twice, violating the claimed
exactly-once coverage. -/
theorem ascDoc_injective : Function.Injective ascDoc := by
  intro i j h
  have hc : ((i : ℕ) : Int) = ((j : ℕ) : Int) :=
    congrArg ChunkEmbeddingDoc.createdAt h
  exact_mod_cast hc

theorem scanWindow_ascPool_first :
    scanWindow ascPool none none = (List.range 1000).map ascDoc := by
  unfold scanWindow applyCursor modelFilter ascPool
  dsimp only
  rw [← List.map_take, List.take_range]
  norm_num

theorem pageCursor_map_range (n : ℕ) :
    pageCursor ((List.range (n + 1)).map ascDoc)
      = some (((n : ℕ) : Int), toString n) := by
  rw [List.range_succ, List.map_append]
  simp [pageCursor, List.getLast?_concat, ascDoc]

theorem pageCursor_w1 :
    pageCursor ((List.range 1000).map ascDoc) = some (999, "999") := by
  have h := pageCursor_map_range 999
  norm_num at h
  rw [show (1000 : ℕ) = 999 + 1 from rfl, h]
  rfl

theorem pageCursor_w2 :
    pageCursor ((List.range 999).map ascDoc) = some (998, "998") := by
  have h := pageCursor_map_range 998
  norm_num at h
  rw [show (999 : ℕ) = 998 + 1 from rfl, h]
  rfl

theorem cursorPred_999_ascDoc (i : ℕ) :
    cursorPred 999 "999" (ascDoc i) = decide (i < 999) := by
  show decide ((((i : ℕ) : Int) < 999 ∨
      (((i : ℕ) : Int) = 999 ∧ toString i < "999"))) = decide (i < 999)
  rw [decide_eq_decide]
  constructor
  · rintro (h | ⟨h1, h2⟩)
    · exact_mod_cast h
    · exfalso
      have hi : i = 999 := by exact_mod_cast h1
      subst hi
      rw [show toString (999 : ℕ) = "999" from rfl] at h2
      exact lt_irrefl _ h2
  · intro h
    exact Or.inl (by exact_mod_cast h)

theorem filter_lt_range (m n : ℕ) :
    (List.range n).filter (fun i => decide (i < m)) = List.range (min m n) := by
  induction n with
  | zero => simp
  | succ n ih =>
    rw [List.range_succ, List.filter_append, ih]
    by_cases h : n < m
    · have h1 : min m (n + 1) = n + 1 := by omega
      have h2 : min m n = n := by omega
      rw [h1, h2, List.range_succ]
      simp [h]
    · have h1 : min m (n + 1) = min m n := by omega
      rw [h1]
      simp [h]

set_option maxRecDepth 40000 in
theorem scanWindow_ascPool_second :
    scanWindow ascPool none (some (999, "999"))
      = (List.range 999).map ascDoc := by
  unfold scanWindow applyCursor modelFilter ascPool
  dsimp only
  rw [List.filter_map,
    show cursorPred 999 "999" ∘ ascDoc = (fun i : ℕ => decide (i < 999)) from
      funext fun i => cursorPred_999_ascDoc i,
    filter_lt_range,
    List.take_of_length_le
      (by simp only [List.length_map, List.length_range]; omega)]
  norm_num

/-- One call of the pagination session, as `sessionWindows` unfolds it. -/
theorem sessionWindows_succ (pool : List ChunkEmbeddingDoc)
    (model : Option String) (fuel : ℕ) (cursor : Option (Int × String)) :
    sessionWindows pool model (fuel + 1) cursor
      = (if (scanWindow pool model cursor).length = 1000 then
          scanWindow pool model cursor ::
            sessionWindows pool model fuel (pageCursor (scanWindow pool model cursor))
        else [scanWindow pool model cursor]) := rfl

theorem sessionWindows_ascPool :
    sessionWindows ascPool none 5 none
      = [(List.range 1000).map ascDoc, (List.range 999).map ascDoc] := by
  rw [show (5 : ℕ) = 4 + 1 from rfl, sessionWindows_succ,
    scanWindow_ascPool_first, if_pos (by simp), pageCursor_w1,
    show (4 : ℕ) = 3 + 1 from rfl, sessionWindows_succ,
    scanWindow_ascPool_second, if_neg (by simp)]

theorem scoreEmbedding_isOk (sqrtFn : ℚ → ℚ) (emb : List JsNum)
    (r : ChunkEmbeddingDoc) (h : r.embedding.length = emb.length) :
    ∃ s, scoreEmbedding sqrtFn emb r = .ok s := by
  rcases cosineSimilarityWithMagnitude_isOk emb r.embedding
      (sqrtJ sqrtFn (sqLoop emb (fin 0))) r.magnitude h.symm with ⟨v, hv⟩
  exact ⟨_, by unfold scoreEmbedding; rw [hv]; rfl⟩

/-- The `hasMore`/`nextCursor` fields of a successful `searchChunksV2` page,
read off the scan window. -/
theorem searchChunksV2_fields (sqrtFn : ℚ → ℚ) (emb : List JsNum)
    (lim : Option ℕ) (thr : Option JsNum) (cursor : Option (Int × String))
    (model : Option String) (pool : List ChunkEmbeddingDoc)
    (h : ∀ r ∈ scanWindow pool model cursor, r.embedding.length = emb.length) :
    (searchChunksV2 sqrtFn emb lim thr cursor model pool).map
        (fun r => (r.hasMore, r.nextCursor))
      = .ok (decide ((scanWindow pool model cursor).length = 1000),
             pageCursor (scanWindow pool model cursor)) := by
  rcases mapE_isOk (scoreEmbedding sqrtFn emb) (scanWindow pool model cursor)
      (fun r hr => scoreEmbedding_isOk sqrtFn emb r (h r hr)) with ⟨ys, hys⟩
  rw [searchChunksV2, hys]
  rfl

/-- C6, the code at the failing input: on a pool of 1001 rows in ascending
creation order, the first page scans rows 0–999 and reports `hasMore = true`
with cursor `(999, "999")`; the strictly-before cursor filter makes the
second page re-scan rows 0–998 and stop (`hasMore = false`), so the session
terminates after two pages with the newest row (`createdAt = 1000`) never
scanned and the oldest row scanned twice — not the claimed exactly-once
coverage. -/
theorem pagination_skips_and_rescans :
    sessionWindows ascPool none 5 none
      = [(List.range 1000).map ascDoc, (List.range 999).map ascDoc] ∧
    (searchChunksV2 (fun _ => 0) [] none none none none ascPool).map
        (fun r => (r.hasMore, r.nextCursor)) = .ok (true, some (999, "999")) ∧
    (searchChunksV2 (fun _ => 0) [] none none (some (999, "999")) none ascPool).map
        (fun r => (r.hasMore, r.nextCursor)) = .ok (false, some (998, "998")) ∧
    ascDoc 1000 ∉ (sessionWindows ascPool none 5 none).flatten ∧
    (sessionWindows ascPool none 5 none).flatten.count (ascDoc 0) = 2 := by
  have hlen1 : ∀ r ∈ scanWindow ascPool none none,
      r.embedding.length = ([] : List JsNum).length := by
    intro r hr
    rw [scanWindow_ascPool_first] at hr
    rcases List.mem_map.mp hr with ⟨i, _, rfl⟩
    rfl
  have hlen2 : ∀ r ∈ scanWindow ascPool none (some (999, "999")),
      r.embedding.length = ([] : List JsNum).length := by
    intro r hr
    rw [scanWindow_ascPool_second] at hr
    rcases List.mem_map.mp hr with ⟨i, _, rfl⟩
    rfl
  have hnotmem : ∀ n : ℕ, n ≤ 1000 → ascDoc 1000 ∉ (List.range n).map ascDoc := by
    intro n hn hmem
    rcases List.mem_map.mp hmem with ⟨i, hi, hig⟩
    have := ascDoc_injective hig
    rw [List.mem_range] at hi
    omega
  refine ⟨sessionWindows_ascPool, ?_, ?_, ?_, ?_⟩
  · rw [searchChunksV2_fields (fun _ => 0) [] none none none none ascPool hlen1,
      scanWindow_ascPool_first, pageCursor_w1,
      show ((List.range 1000).map ascDoc).length = 1000 by simp]
    rfl
  · rw [searchChunksV2_fields (fun _ => 0) [] none none (some (999, "999"))
        none ascPool hlen2,
      scanWindow_ascPool_second, pageCursor_w2,
      show ((List.range 999).map ascDoc).length = 999 by simp]
    rfl
  · rw [sessionWindows_ascPool]
    simp only [List.flatten_cons, List.flatten_nil, List.append_nil,
      List.mem_append]
    rintro (h | h)
    · exact hnotmem 1000 (by norm_num) h
    · exact hnotmem 999 (by norm_num) h
  · rw [sessionWindows_ascPool]
    have hnodup : ∀ n : ℕ, ((List.range n).map ascDoc).Nodup :=
      fun n => (List.nodup_range n).map ascDoc_injective
    have hmem : ∀ n : ℕ, 0 < n → ascDoc 0 ∈ (List.range n).map ascDoc :=
      fun n hn => List.mem_map.mpr ⟨0, List.mem_range.mpr hn, rfl⟩
    simp only [List.flatten_cons, List.flatten_nil, List.append_nil,
      List.count_append]
    rw [List.count_eq_one_of_mem (hnodup 1000) (hmem 1000 (by norm_num)),
      List.count_eq_one_of_mem (hnodup 999) (hmem 999 (by norm_num))]

end ConvexRag
